import Mathlib

set_option maxRecDepth 100000
set_option exponentiation.threshold 2000
set_option linter.unusedVariables false

/-!
Shallow embedding of `src/sdk/src/utils.ts`: a log-and-throw helper, a JSON
parser with a BigInt reviver, and two HTTP helpers (`get`, `post`) wrapping a
fetch-like transport with status checking.

JavaScript effects are made explicit: thrown exceptions become `Except JSError`,
the error log and the transport invocations become a `World` record that is
threaded through, and the platform `fetch` is a function parameter.
-/

deriving instance DecidableEq for Except

namespace SdkUtils

/-- The JavaScript exception kinds this module can raise or propagate:
`jsError` for `new Error(message)`, `jsSyntaxError` for the failures of
`JSON.parse` and of `BigInt(string)`, `jsTypeError` for type failures, and
`transportFailure` for a rejected promise coming out of the underlying
`fetch` transport. -/
inductive JSError where
  | jsError (message : String)
  | jsSyntaxError (message : String)
  | jsTypeError (message : String)
  | transportFailure (reason : String)
  deriving DecidableEq, Repr

/-! ## JavaScript numbers

`JSON.parse` converts each numeric literal to an IEEE-754 binary64 value and
the reviver in `parseJSON` tests it with `Number.isInteger`.  A finite double
is represented exactly as `(-1)^neg * mantissa * 2^exp2`; the representation
produced by `roundToDouble` is not syntactically unique across different
algorithms, but every number in this development is produced by that single
function, so structural equality is used consistently. -/

/-- A JavaScript number as produced by parsing a JSON numeric literal:
a finite binary64 value `(-1)^neg * mantissa * 2^exp2`, or an infinity
(JSON literals never produce NaN). -/
inductive JSNumber where
  | finite (neg : Bool) (mantissa : Nat) (exp2 : Int)
  | posInf
  | negInf
  deriving DecidableEq, Repr

/-- Fuel-driven floor of the base-2 logarithm of a positive natural. -/
def log2Floor : Nat → Nat → Nat
  | 0, _ => 0
  | fuel + 1, n => if 2 ≤ n then log2Floor fuel (n / 2) + 1 else 0

/-- Fuel-driven least `k` with `p * 2 ^ k ≥ q` (for `1 ≤ p < q`). -/
def ceilLog2Ratio : Nat → Nat → Nat → Nat
  | 0, _, _ => 0
  | fuel + 1, p, q => if q ≤ p then 0 else ceilLog2Ratio fuel (2 * p) q + 1

/-- Round the ratio `P / Q` to the nearest integer, ties to even. -/
def roundHalfEven (P Q : Nat) : Nat :=
  let n := P / Q
  let r := P % Q
  if 2 * r < Q then n
  else if Q < 2 * r then n + 1
  else if n % 2 = 0 then n else n + 1

/-- Round the exact rational `(-1)^neg * N * 10^g` to the nearest IEEE-754
binary64 value (round to nearest, ties to even, overflow to infinity,
gradual underflow to subnormals at the minimum scale `2 ^ (-1074)`).
This is the value `JSON.parse` hands to the reviver for a numeric literal
with decimal digits `N` and decimal scale `g`. -/
def roundToDouble (neg : Bool) (N : Nat) (g : Int) : JSNumber :=
  if N = 0 then .finite neg 0 0
  else
    -- the exact value as a ratio p / q of positive naturals
    let p : Nat := if 0 ≤ g then N * 10 ^ g.toNat else N
    let q : Nat := if 0 ≤ g then 1 else 10 ^ (-g).toNat
    -- e = floor (log2 (p / q))
    let e : Int := if q ≤ p then (log2Floor p (p / q) : Int) else -(ceilLog2Ratio q p q : Int)
    -- scale so that the mantissa is an integer: normal numbers use 53 bits,
    -- subnormals are pinned at exponent -1074
    let k : Int := max (e - 52) (-1074)
    let P : Nat := if 0 ≤ k then p else p * 2 ^ (-k).toNat
    let Q : Nat := if 0 ≤ k then q * 2 ^ k.toNat else q
    let n : Nat := roundHalfEven P Q
    let overflow : Bool :=
      if 0 ≤ k then 2 ^ 1024 ≤ n * 2 ^ k.toNat else 2 ^ (1024 + (-k).toNat) ≤ n
    if overflow then (if neg then .negInf else .posInf)
    else .finite neg n k

/-- `Number.isInteger` on a JavaScript number: true exactly for finite values
with no fractional part. -/
def numberIsInteger : JSNumber → Bool
  | .finite _ n k => 0 ≤ k || n % 2 ^ (-k).toNat == 0
  | _ => false

/-! ## Numeric literal text -/

/-- Value of a list of decimal digit characters, most significant first. -/
def digitsToNat (acc : Nat) : List Char → Nat
  | [] => acc
  | c :: cs => digitsToNat (10 * acc + (c.toNat - 48)) cs

/-- Decompose the text of a JSON numeric literal
(`-? int frac? exp?`) into its sign, its significand digits read as a
natural number, and its decimal scale (exponent minus fraction length).
Assumes the text matches the JSON number grammar, which the parser below
guarantees for every string it feeds in. -/
def numParts (cs : List Char) : Bool × Nat × Int :=
  let (neg, cs1) := match cs with
    | '-' :: r => (true, r)
    | _ => (false, cs)
  let (ip, cs2) := cs1.span Char.isDigit
  let (fp, cs3) := match cs2 with
    | '.' :: r => r.span Char.isDigit
    | _ => ([], cs2)
  let expVal : Int := match cs3 with
    | c :: r =>
      if c = 'e' ∨ c = 'E' then
        match r with
        | '+' :: r2 => (digitsToNat 0 r2 : Int)
        | '-' :: r2 => -(digitsToNat 0 r2 : Int)
        | _ => (digitsToNat 0 r : Int)
      else 0
    | [] => 0
  (neg, digitsToNat 0 (ip ++ fp), expVal - fp.length)

/-- The JavaScript number denoted by the source text of a JSON numeric
literal: its exact mathematical value rounded to binary64. -/
def numberFromSource (src : String) : JSNumber :=
  let (neg, N, g) := numParts src.toList
  roundToDouble neg N g

/-! ## `BigInt(string)` -/

/-- JavaScript `StrWhiteSpace` characters trimmed by `StringToBigInt`
(the whitespace and line-terminator characters that can occur here). -/
def isStrWhiteSpace (c : Char) : Bool :=
  c = ' ' || c = '\t' || c = '\n' || c = '\r' ||
  c = '\x0b' || c = '\x0c' || c = '\u00A0' || c = '\u2028' || c = '\u2029' || c = '\uFEFF'

/-- Value of a digit character in the given radix (2, 8, 10 or 16). -/
def radixDigitVal (radix : Nat) (c : Char) : Option Nat :=
  let v : Option Nat :=
    if '0' ≤ c ∧ c ≤ '9' then some (c.toNat - 48)
    else if 'a' ≤ c ∧ c ≤ 'f' then some (c.toNat - 87)
    else if 'A' ≤ c ∧ c ≤ 'F' then some (c.toNat - 55)
    else none
  match v with
  | some d => if d < radix then some d else none
  | none => none

/-- Value of a nonempty all-valid digit string in the given radix. -/
def radixDigitsVal (radix : Nat) : List Char → Option Nat
  | [] => none
  | cs => go cs 0
where
  go : List Char → Nat → Option Nat
    | [], acc => some acc
    | c :: cs, acc =>
      match radixDigitVal radix c with
      | some d => go cs (radix * acc + d)
      | none => none

/-- JavaScript `StringToBigInt`, the conversion `BigInt(string)` applies:
trim whitespace; empty means `0n`; otherwise a `0x`/`0o`/`0b` radix literal
(no sign) or an optionally signed run of decimal digits.  Anything else —
in particular a decimal point or an exponent marker — is a SyntaxError,
modelled as `none`. -/
def stringToBigInt (s : String) : Option Int :=
  let cs := ((s.toList.dropWhile isStrWhiteSpace).reverse.dropWhile isStrWhiteSpace).reverse
  match cs with
  | [] => some 0
  | '0' :: c :: rest =>
    if c = 'x' ∨ c = 'X' then (radixDigitsVal 16 rest).map Int.ofNat
    else if c = 'o' ∨ c = 'O' then (radixDigitsVal 8 rest).map Int.ofNat
    else if c = 'b' ∨ c = 'B' then (radixDigitsVal 2 rest).map Int.ofNat
    else (radixDigitsVal 10 cs).map Int.ofNat
  | '+' :: rest => (radixDigitsVal 10 rest).map Int.ofNat
  | '-' :: rest => (radixDigitsVal 10 rest).map (fun n => -(n : Int))
  | _ => (radixDigitsVal 10 cs).map Int.ofNat

/-! ## The JSON grammar of `JSON.parse`

The parse tree keeps the raw source text of each numeric literal: this is what
the `context.source` field of the reviver's third argument exposes (per-node
raw text for primitive values).  Arrays and objects are mutual inductives so
that recursion, induction and decidable equality are all structural. -/

mutual
/-- Parse tree of a JSON document, numbers kept as their source text. -/
inductive RawJson where
  | null
  | boolean (b : Bool)
  | num (src : String)
  | str (s : String)
  | arr (items : RawArr)
  | obj (fields : RawObj)
  deriving DecidableEq, Repr

/-- A list of array elements. -/
inductive RawArr where
  | nil
  | cons (head : RawJson) (tail : RawArr)
  deriving DecidableEq, Repr

/-- A list of object members in source order. -/
inductive RawObj where
  | nil
  | cons (key : String) (value : RawJson) (tail : RawObj)
  deriving DecidableEq, Repr
end

/-- The JSON whitespace characters (space, tab, line feed, carriage return). -/
def isJsonWS (c : Char) : Bool :=
  c = ' ' || c = '\t' || c = '\n' || c = '\r'

/-- Drop leading JSON whitespace. -/
def skipWS : List Char → List Char
  | [] => []
  | c :: cs => if isJsonWS c then skipWS cs else c :: cs

/-- Value of four hexadecimal digit characters, or `none`. -/
def hex4 (a b c d : Char) : Option Nat :=
  match radixDigitVal 16 a, radixDigitVal 16 b, radixDigitVal 16 c, radixDigitVal 16 d with
  | some x, some y, some z, some w => some (((x * 16 + y) * 16 + z) * 16 + w)
  | _, _, _, _ => none

/-- Look ahead for a `\uXXXX` escape holding a low surrogate. -/
def lowSurrogate : List Char → Option (Nat × List Char)
  | '\\' :: 'u' :: a :: b :: c :: d :: rest =>
    match hex4 a b c d with
    | some lo => if 0xDC00 ≤ lo ∧ lo ≤ 0xDFFF then some (lo, rest) else none
    | none => none
  | _ => none

/-- Scan the body of a JSON string after the opening quote, decoding escapes.
`\uXXXX` pairs of surrogates combine into one code point; a lone surrogate
becomes U+FFFD because a Lean `String` holds Unicode scalar values, while a
JavaScript string would keep the unpaired UTF-16 code unit (no claim in this
development touches such a string).  Unescaped control characters are a
syntax error, as in `JSON.parse`. -/
def scanString : Nat → List Char → List Char → Option (String × List Char)
  | 0, _, _ => none
  | fuel + 1, acc, cs =>
    match cs with
    | [] => none
    | '"' :: rest => some (String.mk acc.reverse, rest)
    | '\\' :: rest =>
      match rest with
      | [] => none
      | e :: rest2 =>
        if e = '"' then scanString fuel ('"' :: acc) rest2
        else if e = '\\' then scanString fuel ('\\' :: acc) rest2
        else if e = '/' then scanString fuel ('/' :: acc) rest2
        else if e = 'b' then scanString fuel ('\x08' :: acc) rest2
        else if e = 'f' then scanString fuel ('\x0c' :: acc) rest2
        else if e = 'n' then scanString fuel ('\n' :: acc) rest2
        else if e = 'r' then scanString fuel ('\r' :: acc) rest2
        else if e = 't' then scanString fuel ('\t' :: acc) rest2
        else if e = 'u' then
          match rest2 with
          | a :: b :: c :: d :: rest3 =>
            match hex4 a b c d with
            | some cu =>
              if 0xD800 ≤ cu ∧ cu ≤ 0xDBFF then
                match lowSurrogate rest3 with
                | some (lo, rest4) =>
                  scanString fuel
                    (Char.ofNat (0x10000 + (cu - 0xD800) * 0x400 + (lo - 0xDC00)) :: acc) rest4
                | none => scanString fuel ('�' :: acc) rest3
              else if 0xDC00 ≤ cu ∧ cu ≤ 0xDFFF then scanString fuel ('�' :: acc) rest3
              else scanString fuel (Char.ofNat cu :: acc) rest3
            | none => none
          | _ => none
        else none
    | c :: rest => if c.toNat < 32 then none else scanString fuel (c :: acc) rest

/-- Scan the optional fraction and exponent of a numeric literal, returning
the consumed characters and the remainder. -/
def scanFracExp (cs : List Char) : Option (List Char × List Char) :=
  let fr : Option (List Char × List Char) :=
    match cs with
    | '.' :: r =>
      let (ds, r2) := r.span Char.isDigit
      if ds.isEmpty then none else some ('.' :: ds, r2)
    | _ => some ([], cs)
  match fr with
  | none => none
  | some (fchars, cs2) =>
    match cs2 with
    | c :: r =>
      if c = 'e' ∨ c = 'E' then
        let (sgn, r2) : List Char × List Char :=
          match r with
          | '+' :: r3 => (['+'], r3)
          | '-' :: r3 => (['-'], r3)
          | _ => ([], r)
        let (ds, r4) := r2.span Char.isDigit
        if ds.isEmpty then none else some (fchars ++ c :: (sgn ++ ds), r4)
      else some (fchars, cs2)
    | [] => some (fchars, cs2)

/-- Scan a JSON numeric literal `-? (0 | [1-9][0-9]*) frac? exp?`, returning
the consumed characters and the remainder. -/
def scanNumber (cs : List Char) : Option (List Char × List Char) :=
  let (sgn, cs1) : List Char × List Char :=
    match cs with
    | '-' :: r => (['-'], r)
    | _ => ([], cs)
  match cs1 with
  | c :: r =>
    if c = '0' then
      match scanFracExp r with
      | some (fe, rest) => some (sgn ++ '0' :: fe, rest)
      | none => none
    else if c.isDigit then
      let (ds, r2) := r.span Char.isDigit
      match scanFracExp r2 with
      | some (fe, rest) => some (sgn ++ c :: (ds ++ fe), rest)
      | none => none
    else none
  | [] => none

mutual
/-- Recursive-descent parser for a JSON value, fuel-driven so that recursion
is structural; `jsonParse` supplies fuel ample for any input of the given
length. -/
def parseValue : Nat → List Char → Option (RawJson × List Char)
  | 0, _ => none
  | fuel + 1, cs =>
    match skipWS cs with
    | [] => none
    | c :: rest =>
      if c = '"' then
        match scanString (rest.length + 1) [] rest with
        | some (s, r) => some (.str s, r)
        | none => none
      else if c = '\x7b' then parseMembers fuel rest
      else if c = '[' then parseElems fuel rest
      else if c = 't' then
        match rest with
        | 'r' :: 'u' :: 'e' :: r => some (.boolean true, r)
        | _ => none
      else if c = 'f' then
        match rest with
        | 'a' :: 'l' :: 's' :: 'e' :: r => some (.boolean false, r)
        | _ => none
      else if c = 'n' then
        match rest with
        | 'u' :: 'l' :: 'l' :: r => some (.null, r)
        | _ => none
      else
        match scanNumber (c :: rest) with
        | some (lit, r) => some (.num (String.mk lit), r)
        | none => none

/-- Parse the contents of an array after the opening bracket. -/
def parseElems : Nat → List Char → Option (RawJson × List Char)
  | 0, _ => none
  | fuel + 1, cs =>
    match skipWS cs with
    | ']' :: r => some (.arr .nil, r)
    | cs1 =>
      match parseValue fuel cs1 with
      | some (v, r) =>
        match parseElemsRest fuel r with
        | some (tail, r2) => some (.arr (.cons v tail), r2)
        | none => none
      | none => none

/-- Parse `, value` repetitions up to the closing bracket. -/
def parseElemsRest : Nat → List Char → Option (RawArr × List Char)
  | 0, _ => none
  | fuel + 1, cs =>
    match skipWS cs with
    | ']' :: r => some (.nil, r)
    | ',' :: r =>
      match parseValue fuel r with
      | some (v, r2) =>
        match parseElemsRest fuel r2 with
        | some (tail, r3) => some (.cons v tail, r3)
        | none => none
      | none => none
    | _ => none

/-- Parse the contents of an object after the opening brace. -/
def parseMembers : Nat → List Char → Option (RawJson × List Char)
  | 0, _ => none
  | fuel + 1, cs =>
    match skipWS cs with
    | '\x7d' :: r => some (.obj .nil, r)
    | cs1 =>
      match parseMember fuel cs1 with
      | some (k, v, r) =>
        match parseMembersRest fuel r with
        | some (tail, r2) => some (.obj (.cons k v tail), r2)
        | none => none
      | none => none

/-- Parse one `"key" : value` member. -/
def parseMember : Nat → List Char → Option (String × RawJson × List Char)
  | 0, _ => none
  | fuel + 1, cs =>
    match skipWS cs with
    | '"' :: r =>
      match scanString (r.length + 1) [] r with
      | some (k, r2) =>
        match skipWS r2 with
        | ':' :: r3 =>
          match parseValue fuel r3 with
          | some (v, r4) => some (k, v, r4)
          | none => none
        | _ => none
      | none => none
    | _ => none

/-- Parse `, "key" : value` repetitions up to the closing brace. -/
def parseMembersRest : Nat → List Char → Option (RawObj × List Char)
  | 0, _ => none
  | fuel + 1, cs =>
    match skipWS cs with
    | '\x7d' :: r => some (.nil, r)
    | ',' :: r =>
      match parseMember fuel r with
      | some (k, v, r2) =>
        match parseMembersRest fuel r2 with
        | some (tail, r3) => some (.cons k v tail, r3)
        | none => none
      | none => none
    | _ => none
end

/-- `JSON.parse`'s grammar check: parse one value, allow trailing whitespace,
and reject anything else with a SyntaxError. -/
def jsonParse (s : String) : Except JSError RawJson :=
  match parseValue (3 * s.length + 16) s.toList with
  | some (v, rest) =>
    if (skipWS rest).isEmpty then .ok v
    else .error (.jsSyntaxError "Unexpected non-whitespace character after JSON data")
  | none => .error (.jsSyntaxError "Unexpected token in JSON")

-- sanity checks for the parser
example :
    jsonParse "\x7b\"a\": 123456789012345678\x7d" =
      .ok (.obj (.cons "a" (.num "123456789012345678") .nil)) := by decide
example : jsonParse "\x7b" = .error (.jsSyntaxError "Unexpected token in JSON") := by decide
example : jsonParse " [1.5, true, null, \"x\"] " =
    .ok (.arr (.cons (.num "1.5") (.cons (.boolean true)
      (.cons .null (.cons (.str "x") .nil))))) := by decide
example : jsonParse "-0.25e-1" = .ok (.num "-0.25e-1") := by decide
example : jsonParse "01" =
    .error (.jsSyntaxError "Unexpected non-whitespace character after JSON data") := by decide

/-! ## Revival: `parseJSON` from `src/sdk/src/utils.ts`

```ts
export function parseJSON(json: string): any {
    function revive(key: string, value: any, context: any) {
        if (Number.isInteger(value)) {
            return BigInt(context.source);
        } else {
            return value;
        }
    }
    return JSON.parse(json, revive as any);
}
```

`JSON.parse` with a reviver revives children first, then calls the reviver on
each key/value pair, ending with the root under the key `""`.  The third
argument's `source` field is the node's own raw source text for primitive
values and is absent for arrays and objects. -/

mutual
/-- A JavaScript value as produced by `JSON.parse` with the reviver above:
the dynamic tree plus the `bigint` values the reviver introduces. -/
inductive JSValue where
  | null
  | boolean (b : Bool)
  | num (n : JSNumber)
  | bigint (i : Int)
  | str (s : String)
  | arr (items : JSArr)
  | obj (fields : JSObj)
  deriving DecidableEq, Repr

/-- A list of array elements. -/
inductive JSArr where
  | nil
  | cons (head : JSValue) (tail : JSArr)
  deriving DecidableEq, Repr

/-- A list of object members. -/
inductive JSObj where
  | nil
  | cons (key : String) (value : JSValue) (tail : JSObj)
  deriving DecidableEq, Repr
end

/-- `Number.isInteger` applied to an arbitrary JavaScript value: false for
everything that is not a number (including bigints), and for numbers the
integrality test on the binary64 value. -/
def NumberIsInteger : JSValue → Bool
  | .num n => numberIsInteger n
  | _ => false

/-- The reviver from `parseJSON`: when `Number.isInteger(value)` holds,
return `BigInt(context.source)` — which throws a SyntaxError when the raw
text is not a valid BigInt string (it has a fraction or an exponent) —
otherwise return the value unchanged.  `contextSource` is the `source` field
of the reviver's third argument; it is consulted only in the integer branch,
which only a number node can reach, so passing `none` for the other nodes
does not change any observable behaviour. -/
def revive (key : String) (value : JSValue) (contextSource : Option String) :
    Except JSError JSValue :=
  if NumberIsInteger value then
    match contextSource with
    | some src =>
      match stringToBigInt src with
      | some n => .ok (.bigint n)
      | none => .error (.jsSyntaxError "Cannot convert string to a BigInt")
    | none => .error (.jsTypeError "Cannot convert undefined to a BigInt")
  else .ok value

mutual
/-- The `InternalizeJSONProperty` walk of `JSON.parse` with a reviver:
children are revived first, then the reviver runs on the holder's key and
the node's value, with the node's raw source text for numbers. -/
def internalizeValue (key : String) : RawJson → Except JSError JSValue
  | .null => revive key .null (some "null")
  | .boolean b => revive key (.boolean b) (some (if b then "true" else "false"))
  | .str s => revive key (.str s) none
  | .num src => revive key (.num (numberFromSource src)) (some src)
  | .arr items => do
    let xs ← internalizeArr 0 items
    revive key (.arr xs) none
  | .obj fields => do
    let fs ← internalizeObj fields
    revive key (.obj fs) none

/-- Revive array elements in order; element keys are the decimal indices. -/
def internalizeArr (i : Nat) : RawArr → Except JSError JSArr
  | .nil => .ok .nil
  | .cons x xs => do
    let v ← internalizeValue (toString i) x
    let vs ← internalizeArr (i + 1) xs
    .ok (.cons v vs)

/-- Revive object members in source order under their own keys. -/
def internalizeObj : RawObj → Except JSError JSObj
  | .nil => .ok .nil
  | .cons k v fs => do
    let v2 ← internalizeValue k v
    let vs ← internalizeObj fs
    .ok (.cons k v2 vs)
end

/-- `parseJSON` from `src/sdk/src/utils.ts`: `JSON.parse(json, revive)`.
A malformed document throws the parser's SyntaxError before the reviver
ever runs; otherwise the reviver walk runs bottom-up, ending at the root
with key `""`. -/
def parseJSON (json : String) : Except JSError JSValue := do
  let raw ← jsonParse json
  internalizeValue "" raw

mutual
/-- Plain `JSON.parse` without a reviver: numbers become binary64 values,
nothing else changes. -/
def rawToValue : RawJson → JSValue
  | .null => .null
  | .boolean b => .boolean b
  | .num src => .num (numberFromSource src)
  | .str s => .str s
  | .arr items => .arr (arrToValue items)
  | .obj fields => .obj (objToValue fields)

/-- Elementwise conversion of array elements. -/
def arrToValue : RawArr → JSArr
  | .nil => .nil
  | .cons x xs => .cons (rawToValue x) (arrToValue xs)

/-- Memberwise conversion of object members. -/
def objToValue : RawObj → JSObj
  | .nil => .nil
  | .cons k v fs => .cons k (rawToValue v) (objToValue fs)
end

/-- The standard `JSON.parse` (no reviver), for comparison with `parseJSON`. -/
def JSONparse (json : String) : Except JSError JSValue :=
  (jsonParse json).map rawToValue

mutual
/-- No numeric leaf of the document is integer-valued as a binary64. -/
def intFree : RawJson → Bool
  | .null => true
  | .boolean _ => true
  | .num src => !numberIsInteger (numberFromSource src)
  | .str _ => true
  | .arr items => arrIntFree items
  | .obj fields => objIntFree fields

/-- `intFree` over array elements. -/
def arrIntFree : RawArr → Bool
  | .nil => true
  | .cons x xs => intFree x && arrIntFree xs

/-- `intFree` over object members. -/
def objIntFree : RawObj → Bool
  | .nil => true
  | .cons _ v fs => intFree v && objIntFree fs
end

-- sanity checks for parseJSON
example :
    parseJSON "\x7b\"a\": 123456789012345678\x7d" =
      .ok (.obj (.cons "a" (.bigint 123456789012345678) .nil)) := by decide
example :
    parseJSON "\x7b\"a\": 1.0\x7d" =
      .error (.jsSyntaxError "Cannot convert string to a BigInt") := by decide
example :
    parseJSON "\x7b\"a\": 1e2\x7d" =
      .error (.jsSyntaxError "Cannot convert string to a BigInt") := by decide
example :
    parseJSON "[1.5, \"x\", true, null]" = JSONparse "[1.5, \"x\", true, null]" := by decide

/-! ## The fetch wrappers and the log-and-throw helper

```ts
export function logAndThrow(message: string): never {
    console.error(message);
    throw new Error(message);
}

export async function get(url: URL | string, options?: RequestInit) {
    const response = await fetch(url, options);
    if (!response.ok) {
        throw new Error(response.status + " could not get URL " + url);
    }
    return response;
}

export async function post(url: URL | string, options: RequestInit) {
    options.method = "POST";
    const response = await fetch(url, options);
    if (!response.ok) {
        throw new Error(response.status + " could not post URL " + url);
    }
    return response;
}
```

The platform `fetch` is a deterministic oracle passed in as a function; a
`World` record makes the observable effects explicit: the error-log sink
written by `console.error` and the trace of transport invocations (each
entry is one call to `fetch` with the exact arguments handed to it).
`get` and `post` also return the post-call state of the caller's options
object, since `post` mutates it in place. -/

/-- The slice of a platform `Response` these functions observe: the numeric
status and an unconsumed body.  Per the fetch standard, `response.ok` is
derived: it holds exactly when the status is in the 200–299 range. -/
structure Response where
  status : Nat
  body : String := ""
  deriving DecidableEq, Repr

/-- `response.ok`: status in the inclusive success range 200–299. -/
def Response.ok (r : Response) : Bool :=
  200 ≤ r.status && r.status ≤ 299

/-- The request configuration (`RequestInit`) fields this module touches. -/
structure RequestInit where
  method : Option String := none
  headers : List (String × String) := []
  body : Option String := none
  deriving DecidableEq, Repr

/-- A transport failure reason (a rejected `fetch` promise). -/
abbrev TransportError := String

/-- The behaviour of the platform `fetch`: from the url and the (optional)
configuration to either a response or a transport failure. -/
def Transport := String → Option RequestInit → Except TransportError Response

/-- The observable effects: the error-log sink and the trace of transport
invocations in order. -/
structure World where
  errlog : List String := []
  fetchTrace : List (String × Option RequestInit) := []
  deriving DecidableEq, Repr

/-- `logAndThrow` from `src/sdk/src/utils.ts`: write the message to the
error log, then throw `new Error(message)`.  The value type `Empty` is the
TypeScript return type `never`: no value is ever returned. -/
def logAndThrow (message : String) (w : World) : World × Except JSError Empty :=
  ({w with errlog := w.errlog ++ [message]}, .error (.jsError message))

/-- `get` from `src/sdk/src/utils.ts`: invoke the transport once with the
caller's url and configuration as given, then check the status.  Returns the
world (with the one new trace entry), the post-call state of the caller's
configuration (untouched), and the outcome: the response itself on a
success status, `Error(status + " could not get URL " + url)` otherwise,
and the transport's own failure unmodified when `fetch` rejects. -/
def get (fetchImpl : Transport) (url : String) (options : Option RequestInit := none)
    (w : World) : World × Option RequestInit × Except JSError Response :=
  let w := {w with fetchTrace := w.fetchTrace ++ [(url, options)]}
  match fetchImpl url options with
  | .error e => (w, options, .error (.transportFailure e))
  | .ok response =>
    if !response.ok then
      (w, options, .error (.jsError (toString response.status ++ " could not get URL " ++ url)))
    else
      (w, options, .ok response)

/-- `post` from `src/sdk/src/utils.ts`: overwrite `options.method` with
`"POST"` in place — the caller's object keeps that change — then invoke the
transport once with the mutated configuration and apply the same status
check as `get`, with "post" in the error message. -/
def post (fetchImpl : Transport) (url : String) (options : RequestInit)
    (w : World) : World × RequestInit × Except JSError Response :=
  let options := {options with method := some "POST"}
  let w := {w with fetchTrace := w.fetchTrace ++ [(url, some options)]}
  match fetchImpl url (some options) with
  | .error e => (w, options, .error (.transportFailure e))
  | .ok response =>
    if !response.ok then
      (w, options, .error (.jsError (toString response.status ++ " could not post URL " ++ url)))
    else
      (w, options, .ok response)

-- sanity checks for the fetch wrappers
example :
    (get (fun _ _ => .ok { status := 200 }) "http://a" none {}).2.2 =
      .ok { status := 200 } := by decide
example :
    (get (fun _ _ => .ok { status := 404 }) "http://a" none {}).2.2 =
      .error (.jsError "404 could not get URL http://a") := by decide
example :
    (post (fun _ _ => .ok { status := 500 }) "u" { method := some "GET" } {}).2.1 =
      { method := some "POST" : RequestInit } := by decide

-- sanity checks for the numeric model
example : numberIsInteger (numberFromSource "123456789012345678") = true := by decide
example : numberIsInteger (numberFromSource "1.0") = true := by decide
example : numberIsInteger (numberFromSource "1e2") = true := by decide
example : numberIsInteger (numberFromSource "1.5") = false := by decide
example : numberIsInteger (numberFromSource "-0") = true := by decide
example : stringToBigInt "123456789012345678" = some 123456789012345678 := by decide
example : stringToBigInt "1.0" = none := by decide
example : stringToBigInt "1e2" = none := by decide
example : stringToBigInt "-0" = some 0 := by decide

/-! ## The claims -/

/-- C1: on the document `{"a": 123456789012345678}`, `parseJSON` returns an
object whose value at key `"a"` is the arbitrary-precision integer
123456789012345678 itself — a `bigint`, not the lossy binary64 rounding of
the literal.  The reviver receives the node's own raw literal text in
`context.source`, so `BigInt` reconstructs the exact value. -/
theorem parseJSON_preserves_large_integer :
    parseJSON "\x7b\"a\": 123456789012345678\x7d" =
      .ok (.obj (.cons "a" (.bigint 123456789012345678) .nil)) := by
  decide

/-- C4: `logAndThrow message` appends `message` to the error-log sink exactly
once and always raises `Error(message)`; its value type is `Empty`, the
bottom type, so it can never return a value. -/
theorem logAndThrow_logs_once_and_throws (message : String) (w : World) :
    (logAndThrow message w).1.errlog = w.errlog ++ [message] ∧
    (logAndThrow message w).2 = .error (.jsError message) :=
  ⟨rfl, rfl⟩

/-- C7: `get` passes the caller's configuration through to the transport
unmodified — the one transport invocation it records carries exactly the
caller's options value — and the caller's configuration object is unchanged
after the call. -/
theorem get_passes_options_unmodified
    (fetchImpl : Transport) (url : String) (options : Option RequestInit) (w : World) :
    (get fetchImpl url options w).1.fetchTrace = w.fetchTrace ++ [(url, options)] ∧
    (get fetchImpl url options w).2.1 = options := by
  simp only [get]
  cases fetchImpl url options with
  | error e => exact ⟨rfl, rfl⟩
  | ok r => dsimp only; split <;> exact ⟨rfl, rfl⟩

/-- C9: `post` mutates the caller's configuration object in place, setting
its `method` field to `"POST"` and leaving every other field unchanged; the
mutation is the state of the caller's object after the call, whatever the
transport does — including a failing status or a transport failure — so it
persists when `post` raises. -/
theorem post_mutates_options_method_persistently
    (fetchImpl : Transport) (url : String) (options : RequestInit) (w : World) :
    (post fetchImpl url options w).2.1 = {options with method := some "POST"} := by
  simp only [post]
  cases fetchImpl url (some {options with method := some "POST"}) with
  | error e => rfl
  | ok r => dsimp only; split <;> rfl

/-- C10: on well-formed documents whose number literal is not plain integer
digits but whose binary64 value is an integer — `{"a": 1.0}` and
`{"a": 1e2}` — `parseJSON` raises an error instead of returning a value:
the reviver sees `Number.isInteger(value)` true and `BigInt` rejects the
raw texts `"1.0"` and `"1e2"` with a SyntaxError. -/
theorem parseJSON_throws_on_integer_valued_decorated_literals :
    parseJSON "\x7b\"a\": 1.0\x7d" =
      .error (.jsSyntaxError "Cannot convert string to a BigInt") ∧
    parseJSON "\x7b\"a\": 1e2\x7d" =
      .error (.jsSyntaxError "Cannot convert string to a BigInt") :=
  ⟨by decide, by decide⟩

/-- C2: `post` always sends the request with method POST — the transport
invocation it records carries the configuration with `method` overwritten to
`"POST"`, and its outcome is insensitive to whatever method the caller put in
the configuration — and it applies the same status-check contract as `get`:
the response comes back on a success status, and a failing status raises an
error embedding the numeric status code and the url. -/
theorem post_forces_method_POST
    (fetchImpl : Transport) (url : String) (options : RequestInit) (w : World) :
    (post fetchImpl url options w).1.fetchTrace =
      w.fetchTrace ++ [(url, some {options with method := some "POST"})] ∧
    (∀ m, post fetchImpl url {options with method := m} w = post fetchImpl url options w) ∧
    (∀ r, fetchImpl url (some {options with method := some "POST"}) = .ok r →
      (r.ok = true → (post fetchImpl url options w).2.2 = .ok r) ∧
      (r.ok = false → (post fetchImpl url options w).2.2 =
        .error (.jsError (toString r.status ++ " could not post URL " ++ url)))) := by
  refine ⟨?_, ?_, ?_⟩
  · simp only [post]
    cases fetchImpl url (some {options with method := some "POST"}) with
    | error e => rfl
    | ok r => dsimp only; split <;> rfl
  · intro m; rfl
  · intro r h
    constructor
    · intro hok
      simp only [post, h]
      simp [hok]
    · intro hok
      simp only [post, h]
      simp [hok]

/-- C2 witness: with a transport that records nothing and returns status 201,
`post` on a configuration that asks for method `"DELETE"` still sends POST
(the trace shows the overwritten configuration) and returns the response;
with a 404 transport it raises the embedding error. -/
theorem post_forces_method_POST_witness :
    (post (fun _ _ => .ok { status := 201 }) "http://h/x"
        { method := some "DELETE", body := some "x" } {}).1.fetchTrace =
      [("http://h/x", some { method := some "POST", body := some "x" : RequestInit })] ∧
    (post (fun _ _ => .ok { status := 201 }) "http://h/x"
        { method := some "DELETE", body := some "x" } {}).2.2 = .ok { status := 201 } ∧
    (post (fun _ _ => .ok { status := 404 }) "http://h/x"
        { method := some "DELETE", body := some "x" } {}).2.2 =
      .error (.jsError "404 could not post URL http://h/x") := by
  refine ⟨?_, ?_, ?_⟩
  · exact (post_forces_method_POST (fun _ _ => .ok { status := 201 }) "http://h/x"
      { method := some "DELETE", body := some "x" } {}).1
  · exact ((post_forces_method_POST (fun _ _ => .ok { status := 201 }) "http://h/x"
      { method := some "DELETE", body := some "x" } {}).2.2 { status := 201 } rfl).1 (by decide)
  · exact ((post_forces_method_POST (fun _ _ => .ok { status := 404 }) "http://h/x"
      { method := some "DELETE", body := some "x" } {}).2.2 { status := 404 } rfl).2 (by decide)

/-- C3: when the transport yields a response, `get` returns that response
object if its status is in the success range, and otherwise raises an error
whose message contains the numeric status code and the requested url
(the message is `status + " could not get URL " + url`, and both the decimal
status text and the url occur in it as substrings). -/
theorem get_status_check
    (fetchImpl : Transport) (url : String) (options : Option RequestInit)
    (w : World) (r : Response) (h : fetchImpl url options = .ok r) :
    (r.ok = true → (get fetchImpl url options w).2.2 = .ok r) ∧
    (r.ok = false →
      (get fetchImpl url options w).2.2 =
        .error (.jsError (toString r.status ++ " could not get URL " ++ url)) ∧
      List.IsInfix (toString r.status).toList
        (toString r.status ++ " could not get URL " ++ url).toList ∧
      List.IsInfix url.toList
        (toString r.status ++ " could not get URL " ++ url).toList) := by
  constructor
  · intro hok
    simp only [get, h]
    simp [hok]
  · intro hok
    refine ⟨?_, ?_, ?_⟩
    · simp only [get, h]
      simp [hok]
    · refine ⟨[], (" could not get URL " ++ url).toList, ?_⟩
      simp [String.toList, String.append_assoc]
    · refine ⟨(toString r.status ++ " could not get URL ").toList, [], ?_⟩
      simp [String.toList, String.append_assoc]

/-- C3 witness: a transport answering 200 makes `get` return the response;
one answering 404 makes it raise the error embedding `404` and the url. -/
theorem get_status_check_witness :
    (get (fun _ _ => .ok { status := 200, body := "payload" }) "http://h/a" none {}).2.2 =
      .ok { status := 200, body := "payload" } ∧
    (get (fun _ _ => .ok { status := 404 }) "http://h/a" none {}).2.2 =
      .error (.jsError "404 could not get URL http://h/a") ∧
    List.IsInfix "404".toList "404 could not get URL http://h/a".toList ∧
    List.IsInfix "http://h/a".toList "404 could not get URL http://h/a".toList := by
  refine ⟨?_, ?_, ?_, ?_⟩
  · exact (get_status_check (fun _ _ => .ok { status := 200, body := "payload" })
      "http://h/a" none {} { status := 200, body := "payload" } rfl).1 (by decide)
  · exact ((get_status_check (fun _ _ => .ok { status := 404 })
      "http://h/a" none {} { status := 404 } rfl).2 (by decide)).1
  · exact by decide
  · exact by decide

/-- C8: neither `get` nor `post` catches or retries anything: each records
exactly one transport invocation in every outcome — success, failing status,
or transport failure — and a transport failure propagates to the caller with
its reason unmodified. -/
theorem get_post_no_retry_no_catch
    (fetchImpl : Transport) (url : String) (options : Option RequestInit)
    (postOptions : RequestInit) (w : World) :
    (get fetchImpl url options w).1.fetchTrace = w.fetchTrace ++ [(url, options)] ∧
    (post fetchImpl url postOptions w).1.fetchTrace =
      w.fetchTrace ++ [(url, some {postOptions with method := some "POST"})] ∧
    (∀ e, fetchImpl url options = .error e →
      (get fetchImpl url options w).2.2 = .error (.transportFailure e)) ∧
    (∀ e, fetchImpl url (some {postOptions with method := some "POST"}) = .error e →
      (post fetchImpl url postOptions w).2.2 = .error (.transportFailure e)) := by
  refine ⟨?_, ?_, ?_, ?_⟩
  · simp only [get]
    cases fetchImpl url options with
    | error e => rfl
    | ok r => dsimp only; split <;> rfl
  · simp only [post]
    cases fetchImpl url (some {postOptions with method := some "POST"}) with
    | error e => rfl
    | ok r => dsimp only; split <;> rfl
  · intro e he
    simp only [get, he]
  · intro e he
    simp only [post, he]

/-- C8 witness: with a transport that always rejects with reason
`"connection refused"`, both `get` and `post` record one invocation and
propagate the failure unmodified. -/
theorem get_post_no_retry_no_catch_witness :
    (get (fun _ _ => .error "connection refused") "http://h" none {}).1.fetchTrace =
      [("http://h", none)] ∧
    (get (fun _ _ => .error "connection refused") "http://h" none {}).2.2 =
      .error (.transportFailure "connection refused") ∧
    (post (fun _ _ => .error "connection refused") "http://h" {} {}).2.2 =
      .error (.transportFailure "connection refused") := by
  refine ⟨?_, ?_, ?_⟩
  · exact (get_post_no_retry_no_catch (fun _ _ => .error "connection refused")
      "http://h" none {} {}).1
  · exact (get_post_no_retry_no_catch (fun _ _ => .error "connection refused")
      "http://h" none {} {}).2.2.1 "connection refused" rfl
  · exact (get_post_no_retry_no_catch (fun _ _ => .error "connection refused")
      "http://h" none {} {}).2.2.2 "connection refused" rfl

/-- C5: an input that is not well-formed JSON — one the grammar check
`jsonParse` rejects — makes `parseJSON` raise that parse error (always a
SyntaxError), and the `Except` result carries no value at all: there is no
partial output. -/
theorem parseJSON_malformed_raises (s : String) (e : JSError)
    (h : jsonParse s = .error e) :
    parseJSON s = .error e ∧ ∃ m, e = .jsSyntaxError m := by
  constructor
  · simp only [parseJSON, h]
    rfl
  · unfold jsonParse at h
    split at h
    · split at h
      · exact absurd h (by simp)
      · exact ⟨_, (Except.error.injEq _ _ ▸ h).symm⟩
    · exact ⟨_, (Except.error.injEq _ _ ▸ h).symm⟩

/-- C5 witness: the malformed text `"{"` is rejected by the grammar and
`parseJSON` raises the SyntaxError. -/
theorem parseJSON_malformed_raises_witness :
    jsonParse "\x7b" = .error (.jsSyntaxError "Unexpected token in JSON") ∧
    parseJSON "\x7b" = .error (.jsSyntaxError "Unexpected token in JSON") ∧
    ∃ m, (JSError.jsSyntaxError "Unexpected token in JSON") = .jsSyntaxError m :=
  ⟨by decide, (parseJSON_malformed_raises "\x7b" _ (by decide)).1,
    (parseJSON_malformed_raises "\x7b" _ (by decide)).2⟩

mutual
/-- On a tree with no integer-valued numeric leaf the reviver is the identity,
so the walk returns the plain conversion (mutual with the array/object forms). -/
theorem internalizeValue_of_intFree (key : String) (r : RawJson)
    (h : intFree r = true) : internalizeValue key r = .ok (rawToValue r) := by
  cases r with
  | null => simp [internalizeValue, revive, NumberIsInteger, rawToValue]
  | boolean b => simp [internalizeValue, revive, NumberIsInteger, rawToValue]
  | str s => simp [internalizeValue, revive, NumberIsInteger, rawToValue]
  | num src =>
    have hn : numberIsInteger (numberFromSource src) = false := by
      simpa [intFree] using h
    simp [internalizeValue, revive, NumberIsInteger, rawToValue, hn]
  | arr items =>
    have hi : arrIntFree items = true := by simpa [intFree] using h
    have ih := internalizeArr_of_intFree 0 items hi
    simp only [internalizeValue, ih]
    rfl
  | obj fields =>
    have hi : objIntFree fields = true := by simpa [intFree] using h
    have ih := internalizeObj_of_intFree fields hi
    simp only [internalizeValue, ih]
    rfl

/-- Array form of `internalizeValue_of_intFree`. -/
theorem internalizeArr_of_intFree (i : Nat) (xs : RawArr)
    (h : arrIntFree xs = true) : internalizeArr i xs = .ok (arrToValue xs) := by
  cases xs with
  | nil => simp [internalizeArr, arrToValue]
  | cons x t =>
    have hx : intFree x = true := by
      have := h; simp [arrIntFree, Bool.and_eq_true] at this; exact this.1
    have ht : arrIntFree t = true := by
      have := h; simp [arrIntFree, Bool.and_eq_true] at this; exact this.2
    have ih1 := internalizeValue_of_intFree (toString i) x hx
    have ih2 := internalizeArr_of_intFree (i + 1) t ht
    simp only [internalizeArr, ih1, ih2]
    rfl

/-- Object form of `internalizeValue_of_intFree`. -/
theorem internalizeObj_of_intFree (fs : RawObj)
    (h : objIntFree fs = true) : internalizeObj fs = .ok (objToValue fs) := by
  cases fs with
  | nil => simp [internalizeObj, objToValue]
  | cons k v t =>
    have hv : intFree v = true := by
      have := h; simp [objIntFree, Bool.and_eq_true] at this; exact this.1
    have ht : objIntFree t = true := by
      have := h; simp [objIntFree, Bool.and_eq_true] at this; exact this.2
    have ih1 := internalizeValue_of_intFree k v hv
    have ih2 := internalizeObj_of_intFree t ht
    simp only [internalizeObj, ih1, ih2]
    rfl
end

/-- C6: on a well-formed document none of whose numeric leaves is
integer-valued (strings, booleans, null and non-integer floating-point
numbers only), `parseJSON` returns structurally the same value as the
standard `JSON.parse` of the same input. -/
theorem parseJSON_matches_standard_parse (s : String) (raw : RawJson)
    (h1 : jsonParse s = .ok raw) (h2 : intFree raw = true) :
    parseJSON s = JSONparse s := by
  simp only [parseJSON, JSONparse, h1, Except.map_ok]
  have := internalizeValue_of_intFree "" raw h2
  simpa using this

/-- C6 witness: on `{"x": 1.5, "y": true, "z": [null, "s"]}` the two parses
agree. -/
theorem parseJSON_matches_standard_parse_witness :
    jsonParse "\x7b\"x\": 1.5, \"y\": true, \"z\": [null, \"s\"]\x7d" =
      .ok (.obj (.cons "x" (.num "1.5") (.cons "y" (.boolean true)
        (.cons "z" (.arr (.cons .null (.cons (.str "s") .nil))) .nil)))) ∧
    intFree (.obj (.cons "x" (.num "1.5") (.cons "y" (.boolean true)
      (.cons "z" (.arr (.cons .null (.cons (.str "s") .nil))) .nil)))) = true ∧
    parseJSON "\x7b\"x\": 1.5, \"y\": true, \"z\": [null, \"s\"]\x7d" =
      JSONparse "\x7b\"x\": 1.5, \"y\": true, \"z\": [null, \"s\"]\x7d" :=
  ⟨by decide, by decide,
    parseJSON_matches_standard_parse "\x7b\"x\": 1.5, \"y\": true, \"z\": [null, \"s\"]\x7d"
      (.obj (.cons "x" (.num "1.5") (.cons "y" (.boolean true)
        (.cons "z" (.arr (.cons .null (.cons (.str "s") .nil))) .nil))))
      (by decide) (by decide)⟩

end SdkUtils
